import Mathlib

/-!
Verification of the D1 remote export driver (`exportRemotely` / `pollExport`)
from the wrangler `d1 export` command.

The TypeScript source drives a long-running server-side export job by
repeatedly POSTing a status request and inspecting the reply:

* each request carries the caller's `dumpOptions` (tables, noSchema, noData),
  a fixed `limit: 790000`, and the `currentBookmark` (absent on the first
  request, otherwise the `at_bookmark` of the previous response);
* a `success: false` envelope throws `new Error(response.error)`;
* the `messages` of a successful response are scanned in order: lines that
  start with `"Uploaded part"` are renumbered with a pre-incremented counter
  (`++num_parts_uploaded`), all other lines are logged verbatim (behind a
  `🌀 ` console prefix);
* status `complete` returns the response, status `error` throws
  `new Error(errors.join("\n"))`, status `active` recurses with the new
  bookmark and the threaded counter.

`exportRemotely` calls `pollExport` with an absent bookmark, guards on the
returned status, fetches the signed URL once and writes `contents.body || ""`
to the output path.

We embed the loop shallowly: the transport is a finite script of envelopes,
one consumed per request, and `pollExport` returns the full trace — the list
of issued requests, the emitted progress events, and the outcome (returned
response, thrown message, or script exhausted while still polling).
-/

/-- The payload embedded in a `complete` response:
`result: { filename: string; signedUrl: string }`. -/
structure ExportHandle where
  filename : String
  signedUrl : String
deriving DecidableEq, Repr

/-- The tri-state job status of a polling response; only `complete`
carries the artifact handle. -/
inductive Status where
  | active : Status
  | error : Status
  | complete : ExportHandle → Status
deriving DecidableEq, Repr

/-- `true` exactly on `Status.active`; `error` and `complete` are the
terminal statuses. -/
def Status.isActive : Status → Bool
  | Status.active => true
  | _ => false

/-- The `result` field of a successful `PollingResponse`:
`{ type: "export", at_bookmark, messages, errors }` plus the status tag. -/
structure JobResult where
  at_bookmark : String
  messages : List String
  errors : List String
  status : Status
deriving DecidableEq, Repr

/-- The response envelope delivered by `fetchResult`:
either a successful `PollingResponse` or `{ success: false; error: string }`. -/
inductive Envelope where
  | ok : JobResult → Envelope
  | fail : String → Envelope
deriving DecidableEq, Repr

/-- An envelope keeps the poll loop running exactly when it is successful
and its status is `active`. -/
def Envelope.isActive : Envelope → Bool
  | Envelope.ok r => r.status.isActive
  | Envelope.fail _ => false

/-- The caller-supplied `dumpOptions` object (`noSchema`/`noData` are
optional booleans, `tables` a list of table names). -/
structure DumpOptions where
  tables : List String
  noSchema : Option Bool
  noData : Option Bool
deriving DecidableEq, Repr

/-- The `limit` attached to the dump options of every status request:
a fixed protocol constant in the source (`limit: 790000`). -/
def chunkLimit : Nat := 790000

/-- One outgoing status request, as serialized in the POST body:
the account/database route, the spread `dumpOptions` with the fixed
`limit`, and the optional `currentBookmark`. -/
structure Request where
  accountId : String
  databaseUuid : String
  dumpOptions : DumpOptions
  limit : Nat
  currentBookmark : Option String
deriving DecidableEq, Repr

/-- A progress event printed by the poll loop: a renumbered
`Uploaded part n` event, or an informational line carried verbatim. -/
inductive ProgressEvent where
  | part : Nat → ProgressEvent
  | info : String → ProgressEvent
deriving DecidableEq, Repr

/-- The exact console string of a progress event (`console.log` adds the
`🌀 ` prefix in both branches). -/
def ProgressEvent.render : ProgressEvent → String
  | ProgressEvent.part n => "🌀 Uploaded part " ++ toString n
  | ProgressEvent.info line => "🌀 " ++ line

/-- The event number of a `part` event, `none` on informational lines. -/
def ProgressEvent.partNum : ProgressEvent → Option Nat
  | ProgressEvent.part n => some n
  | ProgressEvent.info _ => none

/-- One iteration of the `forEach` body over a progress line: a line
starting with `"Uploaded part"` pre-increments the counter and is emitted
with the incremented value; any other line is emitted verbatim. -/
def processLine (n : Nat) (line : String) : Nat × ProgressEvent :=
  if line.startsWith "Uploaded part" then (n + 1, ProgressEvent.part (n + 1))
  else (n, ProgressEvent.info line)

/-- The `response.result.messages.forEach(...)` loop: scans the lines in
array order, threading the `num_parts_uploaded` counter, and returns the
final counter together with the emitted events. -/
def processMessages (n : Nat) : List String → Nat × List ProgressEvent
  | [] => (n, [])
  | line :: rest =>
    let p := processLine n line
    let q := processMessages p.1 rest
    (q.1, p.2 :: q.2)

/-- JavaScript `Array.prototype.join("\n")`, used by the source for
`response.result.errors.join("\n")`. -/
def joinLines : List String → String
  | [] => ""
  | [s] => s
  | s :: rest => s ++ "\n" ++ joinLines (rest)

/-- How one call to `pollExport` ends: `done` (the response is returned to
the caller), `thrown` (an `Error` with the given message), or `hung`
(the response script ran out while the loop still wanted a reply). -/
inductive Outcome where
  | done : JobResult → Outcome
  | thrown : String → Outcome
  | hung : Outcome
deriving DecidableEq, Repr

/-- The observable trace of one `pollExport` call: every request issued,
every progress event emitted, and the outcome. -/
structure PollTrace where
  requests : List Request
  events : List ProgressEvent
  outcome : Outcome
deriving DecidableEq, Repr

/-- The POST body `pollExport` serializes for a poll: the caller's
`dumpOptions` spread together with `limit: 790000`, and `currentBookmark`. -/
def mkRequest (accountId databaseUuid : String) (dumpOptions : DumpOptions)
    (currentBookmark : Option String) : Request :=
  ⟨accountId, databaseUuid, dumpOptions, chunkLimit, currentBookmark⟩

/-- The recursive poll loop `pollExport`, run against a finite script of
server envelopes (one consumed per request).  Each call issues a request
carrying the current bookmark; a `success: false` envelope throws its
`error`; otherwise the messages are scanned (threading the counter),
`complete` returns the response, `error` throws the joined error lines,
and `active` recurses with the response's `at_bookmark`. -/
def pollExport (accountId databaseUuid : String) (dumpOptions : DumpOptions)
    (currentBookmark : Option String) (num_parts_uploaded : Nat) :
    List Envelope → PollTrace
  | [] =>
    ⟨[mkRequest accountId databaseUuid dumpOptions currentBookmark], [],
      Outcome.hung⟩
  | env :: rest =>
    match env with
    | Envelope.fail e =>
      ⟨[mkRequest accountId databaseUuid dumpOptions currentBookmark], [],
        Outcome.thrown e⟩
    | Envelope.ok r =>
      let p := processMessages num_parts_uploaded r.messages
      match r.status with
      | Status.complete _ =>
        ⟨[mkRequest accountId databaseUuid dumpOptions currentBookmark], p.2,
          Outcome.done r⟩
      | Status.error =>
        ⟨[mkRequest accountId databaseUuid dumpOptions currentBookmark], p.2,
          Outcome.thrown (joinLines r.errors)⟩
      | Status.active =>
        let t := pollExport accountId databaseUuid dumpOptions
          (some r.at_bookmark) p.1 rest
        ⟨mkRequest accountId databaseUuid dumpOptions currentBookmark
            :: t.requests,
          p.2 ++ t.events, t.outcome⟩

/-- `fs.writeFile output contents`: the file at `path` is overwritten with
`contents`, every other path is untouched. -/
def writeFileFn (fs : String → Option String) (path contents : String) :
    String → Option String :=
  fun p => if p = path then some contents else fs p

/-- How one `exportRemotely` call ends: a successful write of `contents`
to `path`, a thrown `Error` message, or a hung transport. -/
inductive RunOutcome where
  | ok : String → String → RunOutcome
  | threw : String → RunOutcome
  | hung : RunOutcome
deriving DecidableEq, Repr

/-- The observable trace of one `exportRemotely` call: the poll requests,
the progress events, the URLs fetched for download, the outcome, and the
resulting file system. -/
structure ExportRun where
  requests : List Request
  events : List ProgressEvent
  fetches : List String
  outcome : RunOutcome
  fs : String → Option String

/-- `exportRemotely`: calls `pollExport` with an absent bookmark and a zero
counter, guards `result.status !== "complete"` (throwing
`Error: D1 reset before export completed!`), then fetches the signed URL
once (`download` maps a URL to the response body, `none` for a null body)
and writes `contents.body || ""` to the `output` path. -/
def exportRemotely (accountId databaseUuid : String)
    (dumpOptions : DumpOptions) (output : String) (script : List Envelope)
    (download : String → Option String) (fs0 : String → Option String) :
    ExportRun :=
  let t := pollExport accountId databaseUuid dumpOptions none 0 script
  match t.outcome with
  | Outcome.hung => ⟨t.requests, t.events, [], RunOutcome.hung, fs0⟩
  | Outcome.thrown e => ⟨t.requests, t.events, [], RunOutcome.threw e, fs0⟩
  | Outcome.done r =>
    match r.status with
    | Status.complete h =>
      let body := (download h.signedUrl).getD ""
      ⟨t.requests, t.events, [h.signedUrl], RunOutcome.ok output body,
        writeFileFn fs0 output body⟩
    | _ =>
      ⟨t.requests, t.events, [],
        RunOutcome.threw "Error: D1 reset before export completed!", fs0⟩

/-! ### Concrete scenario used to exercise the theorems -/

/-- Dump options of the end-to-end scenario: `tables: ["users"], noSchema: true`. -/
def sampleOptions : DumpOptions := ⟨["users"], some true, none⟩

/-- Handle of the scenario's `complete` response. -/
def sampleHandle : ExportHandle := ⟨"dump.sql", "https://x/y"⟩

/-- First scenario response: `active`, bookmark `b1`, one uploaded part. -/
def sampleActive : JobResult := ⟨"b1", ["Uploaded part 2"], [], Status.active⟩

/-- Second scenario response: `complete` with the artifact handle. -/
def sampleComplete : JobResult := ⟨"b2", [], [], Status.complete sampleHandle⟩

/-- Scenario script: one `active` response, then `complete`. -/
def sampleScript : List Envelope := [Envelope.ok sampleActive, Envelope.ok sampleComplete]

/-- A terminal `error` response carrying two server error lines. -/
def sampleErrorResult : JobResult :=
  ⟨"b1", [], ["disk full", "quota exceeded"], Status.error⟩

/-- Script for the error scenario. -/
def sampleErrorScript : List Envelope := [Envelope.ok sampleErrorResult]

/-- Script for the non-success envelope scenario. -/
def sampleFailScript : List Envelope := [Envelope.fail "bad request"]

/-- Download collaborator of the scenario: the signed URL serves `BODY`. -/
def sampleDownload : String → Option String :=
  fun u => if u = "https://x/y" then some "BODY" else none

/-- An initially empty file system. -/
def emptyFs : String → Option String := fun _ => none

/-- A download collaborator whose responses all have a null body. -/
def noneDownload : String → Option String := fun _ => none

/-! ### Unfolding lemmas for the poll loop -/

theorem pollExport_nil (a d : String) (o : DumpOptions) (bm : Option String)
    (n : Nat) :
    pollExport a d o bm n [] = ⟨[mkRequest a d o bm], [], Outcome.hung⟩ := rfl

theorem pollExport_cons_fail (a d : String) (o : DumpOptions) (bm : Option String)
    (n : Nat) (e : String) (rest : List Envelope) :
    pollExport a d o bm n (Envelope.fail e :: rest) =
      ⟨[mkRequest a d o bm], [], Outcome.thrown e⟩ := rfl

theorem pollExport_cons_complete (a d : String) (o : DumpOptions)
    (bm : Option String) (n : Nat) (ab : String) (ms es : List String)
    (h : ExportHandle) (rest : List Envelope) :
    pollExport a d o bm n (Envelope.ok ⟨ab, ms, es, Status.complete h⟩ :: rest) =
      ⟨[mkRequest a d o bm], (processMessages n ms).2,
        Outcome.done ⟨ab, ms, es, Status.complete h⟩⟩ := rfl

theorem pollExport_cons_error (a d : String) (o : DumpOptions)
    (bm : Option String) (n : Nat) (ab : String) (ms es : List String)
    (rest : List Envelope) :
    pollExport a d o bm n (Envelope.ok ⟨ab, ms, es, Status.error⟩ :: rest) =
      ⟨[mkRequest a d o bm], (processMessages n ms).2,
        Outcome.thrown (joinLines es)⟩ := rfl

theorem pollExport_cons_active (a d : String) (o : DumpOptions)
    (bm : Option String) (n : Nat) (ab : String) (ms es : List String)
    (rest : List Envelope) :
    pollExport a d o bm n (Envelope.ok ⟨ab, ms, es, Status.active⟩ :: rest) =
      ⟨mkRequest a d o bm ::
          (pollExport a d o (some ab) (processMessages n ms).1 rest).requests,
        (processMessages n ms).2 ++
          (pollExport a d o (some ab) (processMessages n ms).1 rest).events,
        (pollExport a d o (some ab) (processMessages n ms).1 rest).outcome⟩ := rfl

/-- The first request of every `pollExport` call carries exactly the bookmark
the call was entered with. -/
theorem pollExport_requests_zero (a d : String) (o : DumpOptions)
    (bm : Option String) (n : Nat) (script : List Envelope) :
    (pollExport a d o bm n script).requests[0]? = some (mkRequest a d o bm) := by
  cases script with
  | nil => rfl
  | cons env rest =>
    cases env with
    | fail e => rfl
    | ok r =>
      obtain ⟨ab, ms, es, st⟩ := r
      cases st with
      | active => rw [pollExport_cons_active]; simp
      | error => rfl
      | complete h => rfl

/-! ### Facts about the message loop -/

/-- The final counter equals the initial one plus the number of lines
matching the `Uploaded part` pattern. -/
theorem processMessages_fst (ls : List String) : ∀ n : Nat,
    (processMessages n ls).1 =
      n + ls.countP (fun l => l.startsWith "Uploaded part") := by
  induction ls with
  | nil => intro n; simp [processMessages]
  | cons line rest ih =>
    intro n
    by_cases hl : line.startsWith "Uploaded part" = true <;>
      simp [processMessages, processLine, hl, ih, List.countP_cons] <;> omega

/-- One event is emitted per message line. -/
theorem processMessages_length (ls : List String) : ∀ n : Nat,
    (processMessages n ls).2.length = ls.length := by
  induction ls with
  | nil => intro n; simp [processMessages]
  | cons line rest ih =>
    intro n
    by_cases hl : line.startsWith "Uploaded part" = true <;>
      simp [processMessages, processLine, hl, ih]

/-- The part numbers emitted by one message loop are consecutive, starting
right above the incoming counter. -/
theorem processMessages_parts (ls : List String) : ∀ n : Nat,
    (processMessages n ls).2.filterMap ProgressEvent.partNum =
      List.range' (n + 1) (ls.countP (fun l => l.startsWith "Uploaded part")) := by
  induction ls with
  | nil => intro n; simp [processMessages]
  | cons line rest ih =>
    intro n
    by_cases hl : line.startsWith "Uploaded part" = true
    · simp [processMessages, processLine, hl, ih, List.countP_cons,
        ProgressEvent.partNum, List.range'_succ]
    · simp [processMessages, processLine, hl, ih, List.countP_cons,
        ProgressEvent.partNum]

/-- A line that does not match the `Uploaded part` pattern is emitted
verbatim, at its own array position. -/
theorem processMessages_info (ls : List String) : ∀ (n j : Nat) (line : String),
    ls[j]? = some line → line.startsWith "Uploaded part" = false →
    (processMessages n ls).2[j]? = some (ProgressEvent.info line) := by
  induction ls with
  | nil => intro n j line hj _; simp at hj
  | cons head rest ih =>
    intro n j line hj hnm
    cases j with
    | zero =>
      simp at hj
      subst hj
      simp [processMessages, processLine, hnm]
    | succ j =>
      simp at hj
      by_cases hl : head.startsWith "Uploaded part" = true <;>
        simpa [processMessages, processLine, hl] using ih _ j line hj hnm

/-! ### The poll loop's request/outcome structure -/

/-- Every request after the first one carries exactly the `at_bookmark`
of the immediately preceding (necessarily `active`) response. -/
theorem pollExport_requests_succ (a d : String) (o : DumpOptions) :
    ∀ (script : List Envelope) (bm : Option String) (n i : Nat) (req : Request),
    (pollExport a d o bm n script).requests[i + 1]? = some req →
    ∃ r, script[i]? = some (Envelope.ok r) ∧ r.status = Status.active ∧
      req.currentBookmark = some r.at_bookmark := by
  intro script
  induction script with
  | nil =>
    intro bm n i req h
    simp [pollExport_nil] at h
  | cons env rest ih =>
    intro bm n i req h
    cases env with
    | fail e => simp [pollExport_cons_fail] at h
    | ok r =>
      obtain ⟨ab, ms, es, st⟩ := r
      cases st with
      | error => simp [pollExport_cons_error] at h
      | complete hd => simp [pollExport_cons_complete] at h
      | active =>
        rw [pollExport_cons_active] at h
        simp only [List.getElem?_cons_succ] at h
        cases i with
        | zero =>
          rw [pollExport_requests_zero] at h
          have hreq := Option.some.inj h
          subst hreq
          exact ⟨⟨ab, ms, es, Status.active⟩, by simp, rfl, rfl⟩
        | succ i =>
          obtain ⟨r, hr, hact, hbm⟩ :=
            ih (some ab) (processMessages n ms).1 i req h
          exact ⟨r, by simpa using hr, hact, hbm⟩

/-- Skipping a prefix of `active` responses: the poll loop issues one
request per skipped response, then behaves like a fresh loop on the rest
of the script (with some bookmark and counter). -/
theorem pollExport_drop (a d : String) (o : DumpOptions) :
    ∀ (i : Nat) (script : List Envelope) (bm : Option String) (n : Nat),
    (script.take i).all Envelope.isActive = true →
    i ≤ script.length →
    ∃ (bm' : Option String) (n' : Nat),
      (pollExport a d o bm n script).requests.length =
        i + (pollExport a d o bm' n' (script.drop i)).requests.length ∧
      (pollExport a d o bm n script).outcome =
        (pollExport a d o bm' n' (script.drop i)).outcome := by
  intro i
  induction i with
  | zero =>
    intro script bm n _ _
    exact ⟨bm, n, by simp, rfl⟩
  | succ i ih =>
    intro script bm n hpre hlen
    cases script with
    | nil => simp at hlen
    | cons env rest =>
      rw [List.take_succ_cons, List.all_cons] at hpre
      obtain ⟨henv, hrest⟩ := Bool.and_eq_true_iff.mp hpre
      cases env with
      | fail e => simp [Envelope.isActive] at henv
      | ok r =>
        obtain ⟨ab, ms, es, st⟩ := r
        cases st with
        | error => simp [Envelope.isActive, Status.isActive] at henv
        | complete hd => simp [Envelope.isActive, Status.isActive] at henv
        | active =>
          obtain ⟨bm', n', hlen', hout'⟩ :=
            ih rest (some ab) (processMessages n ms).1 hrest
              (by simpa using hlen)
          refine ⟨bm', n', ?_, ?_⟩
          · rw [pollExport_cons_active]
            simpa [hlen'] using by omega
          · rw [pollExport_cons_active]
            simpa using hout'

/-- The poll loop returns (rather than throwing or hanging) only responses
whose status is `complete`. -/
theorem pollExport_done_complete (a d : String) (o : DumpOptions) :
    ∀ (script : List Envelope) (bm : Option String) (n : Nat) (r : JobResult),
    (pollExport a d o bm n script).outcome = Outcome.done r →
    ∃ h, r.status = Status.complete h := by
  intro script
  induction script with
  | nil =>
    intro bm n r h
    simp [pollExport_nil] at h
  | cons env rest ih =>
    intro bm n r h
    cases env with
    | fail e => simp [pollExport_cons_fail] at h
    | ok r0 =>
      obtain ⟨ab, ms, es, st⟩ := r0
      cases st with
      | error => simp [pollExport_cons_error] at h
      | complete hd =>
        rw [pollExport_cons_complete] at h
        have := Outcome.done.inj h
        subst this
        exact ⟨hd, rfl⟩
      | active =>
        rw [pollExport_cons_active] at h
        exact ih (some ab) (processMessages n ms).1 r h

/-- Across one whole run the emitted part numbers are consecutive starting
right above the initial counter: the list of part numbers equals
`range' (n+1) m` where `m` is its own length. -/
theorem pollExport_parts (a d : String) (o : DumpOptions) :
    ∀ (script : List Envelope) (bm : Option String) (n : Nat),
    (pollExport a d o bm n script).events.filterMap ProgressEvent.partNum =
      List.range' (n + 1)
        ((pollExport a d o bm n script).events.filterMap
          ProgressEvent.partNum).length := by
  intro script
  induction script with
  | nil => intro bm n; simp [pollExport_nil]
  | cons env rest ih =>
    intro bm n
    cases env with
    | fail e => simp [pollExport_cons_fail]
    | ok r0 =>
      obtain ⟨ab, ms, es, st⟩ := r0
      cases st with
      | complete hd =>
        rw [pollExport_cons_complete]
        simp [processMessages_parts]
      | error =>
        rw [pollExport_cons_error]
        simp [processMessages_parts]
      | active =>
        rw [pollExport_cons_active]
        simp only [List.filterMap_append, List.length_append]
        rw [processMessages_parts, processMessages_fst]
        have hrec := ih (some ab)
          (n + ms.countP (fun l => l.startsWith "Uploaded part"))
        simp only [List.length_range']
        conv_lhs => rw [hrec]
        rw [show n + ms.countP (fun l => l.startsWith "Uploaded part") + 1 =
            (n + 1) + ms.countP (fun l => l.startsWith "Uploaded part")
          from by omega]
        rw [List.range'_append_1]
        congr 1
        omega

/-- Every request the poll loop ever issues is `mkRequest a d o bm'` for
some bookmark: route, dump options and limit are identical on every poll. -/
theorem pollExport_requests_shape (a d : String) (o : DumpOptions) :
    ∀ (script : List Envelope) (bm : Option String) (n : Nat) (req : Request),
    req ∈ (pollExport a d o bm n script).requests →
    ∃ bm', req = mkRequest a d o bm' := by
  intro script
  induction script with
  | nil =>
    intro bm n req h
    rw [pollExport_nil] at h
    exact ⟨bm, by simpa using h⟩
  | cons env rest ih =>
    intro bm n req h
    cases env with
    | fail e =>
      rw [pollExport_cons_fail] at h
      exact ⟨bm, by simpa using h⟩
    | ok r0 =>
      obtain ⟨ab, ms, es, st⟩ := r0
      cases st with
      | complete hd =>
        rw [pollExport_cons_complete] at h
        exact ⟨bm, by simpa using h⟩
      | error =>
        rw [pollExport_cons_error] at h
        exact ⟨bm, by simpa using h⟩
      | active =>
        rw [pollExport_cons_active] at h
        rcases List.mem_cons.mp h with hh | ht
        · exact ⟨bm, hh⟩
        · exact ih (some ab) (processMessages n ms).1 req ht

/-- Every element of a list is a substring (in the concatenation sense) of
its JavaScript `join("\n")`. -/
theorem joinLines_mem (s : String) : ∀ (l : List String), s ∈ l →
    ∃ pre post, joinLines l = pre ++ (s ++ post) := by
  intro l
  induction l with
  | nil => intro h; simp at h
  | cons x rest ih =>
    intro h
    cases rest with
    | nil =>
      have hx : s = x := by simpa using h
      subst hx
      exact ⟨"", "", by simp [joinLines]⟩
    | cons y rest' =>
      rcases List.mem_cons.mp h with hx | hmem
      · subst hx
        exact ⟨"", "\n" ++ joinLines (y :: rest'),
          by simp [joinLines, String.append_assoc]⟩
      · obtain ⟨a, b, hab⟩ := ih hmem
        refine ⟨x ++ "\n" ++ a, b, ?_⟩
        simp [joinLines, hab, String.append_assoc]

/-- When the poll loop returns a `complete` response, `exportRemotely`
takes the success path: it advertises and fetches the signed URL once and
overwrites the output path with the downloaded body (`body || ""`). -/
theorem exportRemotely_of_done (a d : String) (o : DumpOptions)
    (output : String) (script : List Envelope)
    (download : String → Option String) (fs0 : String → Option String)
    (r : JobResult) (h : ExportHandle)
    (hout : (pollExport a d o none 0 script).outcome = Outcome.done r)
    (hst : r.status = Status.complete h) :
    exportRemotely a d o output script download fs0 =
      ⟨(pollExport a d o none 0 script).requests,
        (pollExport a d o none 0 script).events,
        [h.signedUrl],
        RunOutcome.ok output ((download h.signedUrl).getD ""),
        writeFileFn fs0 output ((download h.signedUrl).getD "")⟩ := by
  simp [exportRemotely, hout, hst]

/-- The poll loop's outcome when the response at index `i` (after `i`
`active` responses) is successful with status `complete`: the loop returns
exactly that response. -/
theorem pollExport_done_at (a d : String) (o : DumpOptions)
    (script : List Envelope) (i : Nat) (r : JobResult)
    (hpre : (script.take i).all Envelope.isActive = true)
    (hi : script[i]? = some (Envelope.ok r))
    (hst : ∃ h, r.status = Status.complete h) :
    (pollExport a d o none 0 script).outcome = Outcome.done r := by
  obtain ⟨h0, hsth⟩ := hst
  obtain ⟨hlt, heq⟩ := List.getElem?_eq_some_iff.mp hi
  obtain ⟨bm', n', -, hout⟩ := pollExport_drop a d o i script none 0 hpre hlt.le
  rw [List.drop_eq_getElem_cons hlt, heq] at hout
  obtain ⟨ab, ms, es, st⟩ := r
  have hst' : st = Status.complete h0 := by simpa using hsth
  subst hst'
  rw [pollExport_cons_complete] at hout
  simpa using hout

/-! ### The claims -/

/-- C1 (Bookmark threading): for every export, the first status request
carries no bookmark, and every subsequent request carries exactly the
`at_bookmark` token of the immediately preceding `active` response. -/
theorem bookmark_threading (a d : String) (o : DumpOptions)
    (script : List Envelope) :
    ((pollExport a d o none 0 script).requests[0]?).map Request.currentBookmark =
      some none ∧
    ∀ (i : Nat) (req : Request),
      (pollExport a d o none 0 script).requests[i + 1]? = some req →
      ∃ r, script[i]? = some (Envelope.ok r) ∧ r.status = Status.active ∧
        req.currentBookmark = some r.at_bookmark := by
  constructor
  · rw [pollExport_requests_zero]
    rfl
  · intro i req h
    exact pollExport_requests_succ a d o script none 0 i req h

/-- Witness for C1: in the sample scenario the second request carries
exactly the bookmark `b1` of the first (active) response. -/
theorem bookmark_threading_witness :
    ∃ r, sampleScript[0]? = some (Envelope.ok r) ∧ r.status = Status.active ∧
      (mkRequest "a" "d" sampleOptions (some "b1")).currentBookmark =
        some r.at_bookmark :=
  (bookmark_threading "a" "d" sampleOptions sampleScript).2 0
    (mkRequest "a" "d" sampleOptions (some "b1")) (by decide)

/-- C2 (Terminal-once): once the response at index `i` (preceded by `i`
`active` responses) reports status `error` or `complete`, the run issues
exactly `i + 1` requests — none after the terminal response. -/
theorem terminal_once (a d : String) (o : DumpOptions) (script : List Envelope)
    (i : Nat) (r : JobResult)
    (hpre : (script.take i).all Envelope.isActive = true)
    (hi : script[i]? = some (Envelope.ok r))
    (hterm : r.status = Status.error ∨ ∃ h, r.status = Status.complete h) :
    (pollExport a d o none 0 script).requests.length = i + 1 := by
  obtain ⟨hlt, heq⟩ := List.getElem?_eq_some_iff.mp hi
  obtain ⟨bm', n', hlen, -⟩ := pollExport_drop a d o i script none 0 hpre hlt.le
  rw [List.drop_eq_getElem_cons hlt, heq] at hlen
  obtain ⟨ab, ms, es, st⟩ := r
  rcases hterm with hst | ⟨h, hst⟩
  · have hst' : st = Status.error := by simpa using hst
    subst hst'
    rw [pollExport_cons_error] at hlen
    simpa using hlen
  · have hst' : st = Status.complete h := by simpa using hst
    subst hst'
    rw [pollExport_cons_complete] at hlen
    simpa using hlen

/-- Witness for C2: the error scenario issues exactly one request. -/
theorem terminal_once_witness :
    (pollExport "a" "d" sampleOptions none 0 sampleErrorScript).requests.length =
      1 :=
  terminal_once "a" "d" sampleOptions sampleErrorScript 0 sampleErrorResult
    rfl rfl (Or.inl rfl)

/-- C3 (Monotonic renumbering): over a whole export (counter starting at
zero), the sequence of emitted part numbers, in arrival order, is exactly
`1, 2, …, m` — independent of the part numbers embedded in the lines. -/
theorem monotonic_renumbering (a d : String) (o : DumpOptions)
    (script : List Envelope) :
    (pollExport a d o none 0 script).events.filterMap ProgressEvent.partNum =
      List.range' 1
        ((pollExport a d o none 0 script).events.filterMap
          ProgressEvent.partNum).length :=
  pollExport_parts a d o script none 0

/-- C4 (Envelope failure): when the response at index `i` (after `i`
`active` ones) has `success: false`, the run throws exactly the envelope's
`error` string and issues no further requests. -/
theorem envelope_failure (a d : String) (o : DumpOptions)
    (script : List Envelope) (i : Nat) (e : String)
    (hpre : (script.take i).all Envelope.isActive = true)
    (hi : script[i]? = some (Envelope.fail e)) :
    (pollExport a d o none 0 script).outcome = Outcome.thrown e ∧
    (pollExport a d o none 0 script).requests.length = i + 1 := by
  obtain ⟨hlt, heq⟩ := List.getElem?_eq_some_iff.mp hi
  obtain ⟨bm', n', hlen, hout⟩ := pollExport_drop a d o i script none 0 hpre hlt.le
  rw [List.drop_eq_getElem_cons hlt, heq] at hlen hout
  rw [pollExport_cons_fail] at hlen hout
  exact ⟨by simpa using hout, by simpa using hlen⟩

/-- Witness for C4: the `{success:false, error:"bad request"}` scenario
throws `bad request` after a single request. -/
theorem envelope_failure_witness :
    (pollExport "a" "d" sampleOptions none 0 sampleFailScript).outcome =
        Outcome.thrown "bad request" ∧
    (pollExport "a" "d" sampleOptions none 0 sampleFailScript).requests.length =
        1 :=
  envelope_failure "a" "d" sampleOptions sampleFailScript 0 "bad request"
    rfl rfl

/-- C5 (Error surfacing): a response with status `error` makes the run
throw the server's error list joined by newlines, and every individual
server error string occurs inside that joined message. -/
theorem error_surfacing (a d : String) (o : DumpOptions)
    (script : List Envelope) (i : Nat) (r : JobResult)
    (hpre : (script.take i).all Envelope.isActive = true)
    (hi : script[i]? = some (Envelope.ok r))
    (hst : r.status = Status.error) :
    (pollExport a d o none 0 script).outcome =
        Outcome.thrown (joinLines r.errors) ∧
    ∀ s ∈ r.errors, ∃ pre post, joinLines r.errors = pre ++ (s ++ post) := by
  refine ⟨?_, fun s hs => joinLines_mem s r.errors hs⟩
  obtain ⟨hlt, heq⟩ := List.getElem?_eq_some_iff.mp hi
  obtain ⟨bm', n', -, hout⟩ := pollExport_drop a d o i script none 0 hpre hlt.le
  rw [List.drop_eq_getElem_cons hlt, heq] at hout
  obtain ⟨ab, ms, es, st⟩ := r
  have hst' : st = Status.error := by simpa using hst
  subst hst'
  rw [pollExport_cons_error] at hout
  simpa using hout

/-- Witness for C5: the `["disk full", "quota exceeded"]` error scenario
throws their newline-join, which contains both strings. -/
theorem error_surfacing_witness :
    (pollExport "a" "d" sampleOptions none 0 sampleErrorScript).outcome =
        Outcome.thrown (joinLines sampleErrorResult.errors) ∧
    ∀ s ∈ sampleErrorResult.errors,
      ∃ pre post, joinLines sampleErrorResult.errors = pre ++ (s ++ post) :=
  error_surfacing "a" "d" sampleOptions sampleErrorScript 0 sampleErrorResult
    rfl rfl rfl

/-- C6 (Completion and retrieval): when polling ends with a `complete`
response carrying `{filename, signedUrl}`, the driver returns that
response to the caller, and the retriever performs a single GET of the
signed URL and writes the fetched body to the caller-supplied output
path, overwriting whatever file system it started from. -/
theorem completion_and_retrieval (a d : String) (o : DumpOptions)
    (output : String) (script : List Envelope)
    (download : String → Option String) (fs0 : String → Option String)
    (i : Nat) (r : JobResult) (h : ExportHandle)
    (hpre : (script.take i).all Envelope.isActive = true)
    (hi : script[i]? = some (Envelope.ok r))
    (hst : r.status = Status.complete h) :
    (pollExport a d o none 0 script).outcome = Outcome.done r ∧
    (exportRemotely a d o output script download fs0).fetches =
        [h.signedUrl] ∧
    (exportRemotely a d o output script download fs0).outcome =
        RunOutcome.ok output ((download h.signedUrl).getD "") ∧
    (exportRemotely a d o output script download fs0).fs output =
        some ((download h.signedUrl).getD "") := by
  have hdone := pollExport_done_at a d o script i r hpre hi ⟨h, hst⟩
  rw [exportRemotely_of_done a d o output script download fs0 r h hdone hst]
  exact ⟨hdone, rfl, rfl, by simp [writeFileFn]⟩

/-- Witness for C6 in the sample scenario: the `complete` response is
returned, its signed URL is the single fetch, and its body is written to
`out.sql`. -/
theorem completion_and_retrieval_witness :
    (pollExport "a" "d" sampleOptions none 0 sampleScript).outcome =
        Outcome.done sampleComplete ∧
    (exportRemotely "a" "d" sampleOptions "out.sql" sampleScript
        sampleDownload emptyFs).fetches = [sampleHandle.signedUrl] ∧
    (exportRemotely "a" "d" sampleOptions "out.sql" sampleScript
        sampleDownload emptyFs).outcome =
        RunOutcome.ok "out.sql"
          ((sampleDownload sampleHandle.signedUrl).getD "") ∧
    (exportRemotely "a" "d" sampleOptions "out.sql" sampleScript
        sampleDownload emptyFs).fs "out.sql" =
        some ((sampleDownload sampleHandle.signedUrl).getD "") :=
  completion_and_retrieval "a" "d" sampleOptions "out.sql" sampleScript
    sampleDownload emptyFs 1 sampleComplete sampleHandle rfl rfl rfl

/-- C7 (Request invariance): every status request of an export carries the
same route, the caller's dump options unchanged, and the fixed chunk
limit `790000`; only the bookmark varies between polls. -/
theorem request_invariance (a d : String) (o : DumpOptions)
    (script : List Envelope) :
    ∀ req ∈ (pollExport a d o none 0 script).requests,
      req.accountId = a ∧ req.databaseUuid = d ∧ req.dumpOptions = o ∧
        req.limit = 790000 := by
  intro req hreq
  obtain ⟨bm', rfl⟩ := pollExport_requests_shape a d o script none 0 req hreq
  exact ⟨rfl, rfl, rfl, rfl⟩

/-- Witness for C7: the sample scenario's first request carries the
caller's options and the fixed limit. -/
theorem request_invariance_witness :
    (mkRequest "a" "d" sampleOptions none).accountId = "a" ∧
    (mkRequest "a" "d" sampleOptions none).databaseUuid = "d" ∧
    (mkRequest "a" "d" sampleOptions none).dumpOptions = sampleOptions ∧
    (mkRequest "a" "d" sampleOptions none).limit = 790000 :=
  request_invariance "a" "d" sampleOptions sampleScript
    (mkRequest "a" "d" sampleOptions none) (by decide)

/-- C8 (Verbatim emission): the message loop emits one event per line,
and every line that does not match the `Uploaded part` pattern is emitted
verbatim as an informational event at its own array position. -/
theorem verbatim_emission (n : Nat) (ls : List String) :
    (processMessages n ls).2.length = ls.length ∧
    ∀ (j : Nat) (line : String), ls[j]? = some line →
      line.startsWith "Uploaded part" = false →
      (processMessages n ls).2[j]? = some (ProgressEvent.info line) :=
  ⟨processMessages_length ls n,
    fun j line hj hnm => processMessages_info ls n j line hj hnm⟩

/-- Witness for C8: `Finalizing` is emitted verbatim, in position. -/
theorem verbatim_emission_witness :
    (processMessages 0 ["Uploaded part 2", "Finalizing"]).2[1]? =
      some (ProgressEvent.info "Finalizing") :=
  (verbatim_emission 0 ["Uploaded part 2", "Finalizing"]).2 1 "Finalizing"
    rfl (by decide)

/-- C9 (Poll returns only complete): whenever `pollExport` returns (rather
than throwing), the returned response's status is `complete`, so
`exportRemotely`'s guard that would throw
`Error: D1 reset before export completed!` is unreachable and the run
takes the success path. -/
theorem poll_returns_only_complete (a d : String) (o : DumpOptions)
    (output : String) (script : List Envelope)
    (download : String → Option String) (fs0 : String → Option String)
    (r : JobResult)
    (hdone : (pollExport a d o none 0 script).outcome = Outcome.done r) :
    ∃ h, r.status = Status.complete h ∧
      (exportRemotely a d o output script download fs0).outcome =
        RunOutcome.ok output ((download h.signedUrl).getD "") := by
  obtain ⟨h, hst⟩ := pollExport_done_complete a d o script none 0 r hdone
  refine ⟨h, hst, ?_⟩
  rw [exportRemotely_of_done a d o output script download fs0 r h hdone hst]

/-- Witness for C9 at the sample scenario. -/
theorem poll_returns_only_complete_witness :
    ∃ h, sampleComplete.status = Status.complete h ∧
      (exportRemotely "a" "d" sampleOptions "out.sql" sampleScript
          sampleDownload emptyFs).outcome =
        RunOutcome.ok "out.sql" ((sampleDownload h.signedUrl).getD "") :=
  poll_returns_only_complete "a" "d" sampleOptions "out.sql" sampleScript
    sampleDownload emptyFs sampleComplete (by decide)

/-- C10 (Null body): when the download response for the signed URL has a
null body, the retriever still succeeds and writes an empty file to the
output path (`contents.body || ""`). -/
theorem null_body_empty_write (a d : String) (o : DumpOptions)
    (output : String) (script : List Envelope)
    (download : String → Option String) (fs0 : String → Option String)
    (i : Nat) (r : JobResult) (h : ExportHandle)
    (hpre : (script.take i).all Envelope.isActive = true)
    (hi : script[i]? = some (Envelope.ok r))
    (hst : r.status = Status.complete h)
    (hbody : download h.signedUrl = none) :
    (exportRemotely a d o output script download fs0).outcome =
        RunOutcome.ok output "" ∧
    (exportRemotely a d o output script download fs0).fs output = some "" := by
  have hdone := pollExport_done_at a d o script i r hpre hi ⟨h, hst⟩
  rw [exportRemotely_of_done a d o output script download fs0 r h hdone hst,
    hbody]
  exact ⟨rfl, by simp [writeFileFn]⟩

/-- Witness for C10: with a null-body download the sample run writes the
empty string to `out.sql`. -/
theorem null_body_empty_write_witness :
    (exportRemotely "a" "d" sampleOptions "out.sql" sampleScript
        noneDownload emptyFs).outcome = RunOutcome.ok "out.sql" "" ∧
    (exportRemotely "a" "d" sampleOptions "out.sql" sampleScript
        noneDownload emptyFs).fs "out.sql" = some "" :=
  null_body_empty_write "a" "d" sampleOptions "out.sql" sampleScript
    noneDownload emptyFs 1 sampleComplete sampleHandle rfl rfl rfl rfl
